import Mathlib

/-!
Shallow embedding of the session/resume logic of `coding_interface.py`
(Financial Accelerator Classification Interface).

Tabular files are modelled as `DataFrame`s whose cells are `Option String`
(`none` models a missing value / pandas NaN; distinct missing values are
modelled as equal), the Streamlit per-session state as `SessionState`, and
the button handlers of `main` as explicit state-transition functions.
CSV parsing itself is abstracted: functions that receive a file receive the
already-parsed table (`Option DataFrame`, with `none` for a parse failure).
-/

deriving instance DecidableEq for Except

namespace CodingInterface

/-- A table cell: `some s` is a string value, `none` a missing value (NaN). -/
abbrev Cell := Option String

/-- One row of a tabular file, as an association list from column name to cell. -/
abbrev Row := List (String × Cell)

/-- Look a column up in a row: `none` when the row has no such column. -/
def findCol : Row → String → Option Cell
  | [], _ => none
  | (k, v) :: rest, c => if k = c then some v else findCol rest c

/-- Value of a column in a row; a column absent from the row reads as NaN. -/
def getCell (row : Row) (c : String) : Cell := (findCol row c).getD none

/-- pandas `row.get(c, d)`: the cell when the column exists, `d` otherwise. -/
def rowGetD (row : Row) (c : String) (d : Cell) : Cell := (findCol row c).getD d

/-- A parsed tabular file. -/
structure DataFrame where
  columns : List String
  rows : List Row
  deriving DecidableEq

/-- One saved label, mirroring the `result` dict built by `main`
(keys `coding_id`, `coder_name`, `classification`, `notes`, `coded_at`). -/
structure LabelRecord where
  coding_id : Cell
  coder_name : Cell
  classification : Cell
  notes : Cell
  coded_at : Cell
  deriving DecidableEq

/-- The mutable Streamlit session state used by the coding workflow:
`current_index`, `results`, `coded_ids` and `locked_coder_name`
(the cosmetic `widget_version` counter is not modelled). -/
structure SessionState where
  current_index : Nat
  results : List LabelRecord
  coded_ids : Finset Cell
  locked_coder_name : Option Cell
  deriving DecidableEq

/-- The state installed by `initialize_session_state`. -/
def initialSessionState : SessionState :=
  { current_index := 0, results := [], coded_ids := ∅, locked_coder_name := none }

/-- `OUTPUT_COLUMNS` of the source: columns included in the download output. -/
def OUTPUT_COLUMNS : List String :=
  ["coding_id", "original_index", "coder_name", "classification",
   "claude_credit_channel", "claude_credit_channel_category",
   "quotation", "description", "variable", "stablespeaker", "ymd",
   "notes", "coded_at"]

/-- The column list `get_results_csv` selects from `coding_df` before the
merge; pandas raises a `KeyError` when any of them is absent. -/
def mergeSelectColumns : List String :=
  ["coding_id", "original_index", "quotation", "description",
   "variable", "stablespeaker", "ymd",
   "claude_credit_channel", "claude_credit_channel_category"]

/-- The non-key columns contributed by `coding_df` to the merge output. -/
def mergeRightColumns : List String :=
  ["original_index", "quotation", "description",
   "variable", "stablespeaker", "ymd",
   "claude_credit_channel", "claude_credit_channel_category"]

/-- The row `pd.DataFrame(results)` produces for one result dict. -/
def resultRow (r : LabelRecord) : Row :=
  [("coding_id", r.coding_id), ("coder_name", r.coder_name),
   ("classification", r.classification), ("notes", r.notes),
   ("coded_at", r.coded_at)]

/-- The rows a left merge on `coding_id` produces for one result: one row per
matching `coding_df` row, or a single row with NaN fills when none matches. -/
def mergedRowsFor (r : LabelRecord) (coding_df : DataFrame) : List Row :=
  let hits := coding_df.rows.filter (fun row => decide (getCell row "coding_id" = r.coding_id))
  if hits.isEmpty then
    [resultRow r ++ mergeRightColumns.map (fun c => (c, (none : Cell)))]
  else
    hits.map (fun m => resultRow r ++ mergeRightColumns.map (fun c => (c, getCell m c)))

/-- `get_results_csv`: builds `pd.DataFrame(results)`, left-merges it with the
nine selected columns of `coding_df` on `coding_id` (a `KeyError` when one of
those columns is absent), then reorders to the `OUTPUT_COLUMNS` that exist. -/
def get_results_csv (results : List LabelRecord) (coding_df : DataFrame) :
    Except String DataFrame :=
  if mergeSelectColumns.all (fun c => coding_df.columns.contains c) then
    let mergedColumns := ["coding_id", "coder_name", "classification", "notes", "coded_at"]
      ++ mergeRightColumns
    let mergedRows := results.flatMap (fun r => mergedRowsFor r coding_df)
    let output_cols := OUTPUT_COLUMNS.filter (fun c => mergedColumns.contains c)
    Except.ok { columns := output_cols,
                rows := mergedRows.map (fun row => output_cols.map (fun c => (c, getCell row c))) }
  else
    Except.error "KeyError: columns not in index"

/-- Errors the spec attributes to `Load`; the source never raises this one. -/
inductive LoadError where
  | MissingColumns
  deriving DecidableEq

/-- `load_coding_data_from_file`: `pd.read_csv` of the uploaded bytes and
nothing else — parsing is abstracted (the argument is the parsed table) and
no validation of the table's columns is performed. -/
def load_coding_data_from_file (df : DataFrame) : Except LoadError DataFrame :=
  Except.ok df

/-- The `coding_id` column of a table, as a list of cells in row order. -/
def colIds (df : DataFrame) : List Cell :=
  df.rows.map (fun row => getCell row "coding_id")

/-- Required columns of a resume file, from `validate_resume_csv`. -/
def requiredResumeColumns : List String := ["coding_id", "coder_name", "classification"]

/-- `validate_resume_csv`: returns `(is_valid, message, matching_ids)`.
The counts interpolated into the source's messages are omitted from the
message text (they are recoverable from the returned set). -/
def validate_resume_csv (resume_df coding_df : DataFrame) :
    Bool × String × Finset Cell :=
  if requiredResumeColumns.all (fun c => resume_df.columns.contains c) then
    let resume_ids := (colIds resume_df).toFinset
    let coding_ids := (colIds coding_df).toFinset
    let matching_ids := resume_ids ∩ coding_ids
    if matching_ids = ∅ then
      (false, "No coding_ids in resume file match current data source", ∅)
    else if resume_ids \ coding_ids ≠ ∅ then
      (true, "Warning: coding_ids in resume file not found in current data (will be ignored)",
       matching_ids)
    else
      (true, "Successfully validated coded arguments", matching_ids)
  else
    (false, "Missing required columns", ∅)

/-- The result dict built for one accepted resume row: `notes` defaults to
the empty string and `coded_at` to the current timestamp when the column is
absent from the file. -/
def recordOfRow (row : Row) (now : String) : LabelRecord :=
  { coding_id := getCell row "coding_id"
    coder_name := getCell row "coder_name"
    classification := getCell row "classification"
    notes := rowGetD row "notes" (some "")
    coded_at := rowGetD row "coded_at" (some now) }

/-- The accepted records of a resume file: its rows whose `coding_id` is in
`matching_ids`, in file order, one record per row. -/
def acceptedRecords (resume_df : DataFrame) (matching_ids : Finset Cell) (now : String) :
    List LabelRecord :=
  (resume_df.rows.filter (fun row => decide (getCell row "coding_id" ∈ matching_ids))).map
    (fun row => recordOfRow row now)

/-- Index of the first row whose `coding_id` is not in `coded`, if any
(the loop over `range(len(coding_df))` after a successful resume load). -/
def firstUncodedIdx : List Row → Finset Cell → Option Nat
  | [], _ => none
  | row :: rest, coded =>
    if getCell row "coding_id" ∈ coded then (firstUncodedIdx rest coded).map (· + 1)
    else some 0

/-- Outcome surfaced by the resume-load handler. -/
inductive ImportOutcome where
  | parseError
  | invalid (message : String)
  | loaded (count : Nat) (message : String)
  deriving DecidableEq

/-- The `Load Session` button handler: parse (already abstracted), validate,
filter to matching ids, replace `results` and `coded_ids`, lock the coder
name from the first accepted record, and jump to the first uncoded row
(or the last row when every row is coded).  Any failure leaves the session
state unchanged. -/
def importSession (s : SessionState) (parsed : Option DataFrame)
    (coding_df : DataFrame) (now : String) : SessionState × ImportOutcome :=
  match parsed with
  | none => (s, ImportOutcome.parseError)
  | some resume_df =>
    match validate_resume_csv resume_df coding_df with
    | (false, message, _) => (s, ImportOutcome.invalid message)
    | (true, message, matching_ids) =>
      let valid_results := acceptedRecords resume_df matching_ids now
      let coded := (valid_results.map (fun r => r.coding_id)).toFinset
      let locked := match valid_results with
        | [] => s.locked_coder_name
        | r :: _ => some r.coder_name
      let idx := (firstUncodedIdx coding_df.rows coded).getD (coding_df.rows.length - 1)
      ({ current_index := idx, results := valid_results,
         coded_ids := coded, locked_coder_name := locked },
       ImportOutcome.loaded valid_results.length message)

/-- The update-or-append step of the save handler: replace the first record
whose `coding_id` matches, in place, or append at the end. -/
def replaceOrAppend (results : List LabelRecord) (cid : Cell) (result : LabelRecord) :
    List LabelRecord :=
  match results with
  | [] => [result]
  | r :: rest =>
    if r.coding_id = cid then result :: rest else r :: replaceOrAppend rest cid result

/-- The record the save handler builds once the coder name is locked. -/
def savedRecord (s : SessionState) (coding_id classification notes coder_name now : Cell) :
    LabelRecord :=
  { coding_id := coding_id
    coder_name := s.locked_coder_name.getD coder_name
    classification := classification
    notes := notes
    coded_at := now }

/-- The `Save & Continue` button handler: lock the coder name on first save,
build the record with the locked name, replace-or-append it, add the id to
`coded_ids`, and advance the cursor unless already at the last row. -/
def save (s : SessionState) (coding_df : DataFrame)
    (coding_id classification notes coder_name now : Cell) : SessionState :=
  { current_index :=
      if s.current_index < coding_df.rows.length - 1 then s.current_index + 1
      else s.current_index
    results := replaceOrAppend s.results coding_id
      (savedRecord s coding_id classification notes coder_name now)
    coded_ids := insert coding_id s.coded_ids
    locked_coder_name := some (s.locked_coder_name.getD coder_name) }

/-- The `Previous` button: disabled at index 0, otherwise moves back one. -/
def retreat (s : SessionState) : SessionState :=
  if s.current_index = 0 then s
  else { s with current_index := s.current_index - 1 }

/-- The `Skip` button: disabled at the last index, otherwise moves on one. -/
def advance (s : SessionState) (coding_df : DataFrame) : SessionState :=
  if s.current_index = coding_df.rows.length - 1 then s
  else { s with current_index := s.current_index + 1 }

/-- A session operation: a save, or a resume load (possibly failing). -/
inductive Op where
  | saveOp (coding_df : DataFrame) (coding_id classification notes coder_name now : Cell)
  | importOp (parsed : Option DataFrame) (coding_df : DataFrame) (now : String)

/-- Apply one operation to the session state. -/
def applyOp (s : SessionState) : Op → SessionState
  | Op.saveOp df cid cls nts nm now => save s df cid cls nts nm now
  | Op.importOp parsed df now => (importSession s parsed df now).1

/-- Run a sequence of operations from a state. -/
def runOps (s : SessionState) (ops : List Op) : SessionState :=
  ops.foldl applyOp s

/-! Concrete tables and records used by witnesses and counterexamples. -/

/-- A source row carrying every merge column, with the given `coding_id`. -/
def rowOfId (id : String) : Row :=
  [("coding_id", some id), ("original_index", some "0"), ("quotation", some "q"),
   ("description", some "d"), ("variable", some "v"), ("stablespeaker", some "s"),
   ("ymd", some "y"), ("claude_credit_channel", some "c"),
   ("claude_credit_channel_category", some "cc")]

/-- A loaded Item table with ids A, B, C and every merge column present. -/
def dfABC : DataFrame :=
  { columns := mergeSelectColumns, rows := [rowOfId "A", rowOfId "B", rowOfId "C"] }

/-- A source row without the optional `description` column. -/
def rowNoDesc (id : String) : Row :=
  [("coding_id", some id), ("original_index", some "0"), ("quotation", some "q"),
   ("variable", some "v"), ("stablespeaker", some "s"),
   ("ymd", some "y"), ("claude_credit_channel", some "c"),
   ("claude_credit_channel_category", some "cc")]

/-- A loaded Item table lacking the optional `description` column. -/
def dfNoDesc : DataFrame :=
  { columns := ["coding_id", "original_index", "quotation",
                "variable", "stablespeaker", "ymd",
                "claude_credit_channel", "claude_credit_channel_category"],
    rows := [rowNoDesc "A"] }

/-- A record whose `coding_id` X is absent from `dfABC`. -/
def recX : LabelRecord :=
  { coding_id := some "X", coder_name := some "alice",
    classification := some "strong", notes := some "", coded_at := some "t0" }

/-- A record whose `coding_id` A is present in `dfABC`. -/
def recA : LabelRecord :=
  { coding_id := some "A", coder_name := some "alice",
    classification := some "strong", notes := some "", coded_at := some "t0" }

/-- A resume file whose two rows carry different `coder_name`s. -/
def resumeAB : DataFrame :=
  { columns := requiredResumeColumns,
    rows := [[("coding_id", some "A"), ("coder_name", some "alice"),
              ("classification", some "strong")],
             [("coding_id", some "B"), ("coder_name", some "bob"),
              ("classification", some "none")]] }

/-- A resume file with two rows sharing the `coding_id` A. -/
def resumeDupA : DataFrame :=
  { columns := requiredResumeColumns,
    rows := [[("coding_id", some "A"), ("coder_name", some "alice"),
              ("classification", some "strong")],
             [("coding_id", some "A"), ("coder_name", some "alice"),
              ("classification", some "weak")]] }

/-- A resume file sharing no `coding_id` with `dfABC`. -/
def resumeX : DataFrame :=
  { columns := requiredResumeColumns,
    rows := [[("coding_id", some "X"), ("coder_name", some "alice"),
              ("classification", some "strong")]] }

/-- A resume file lacking the required `coder_name` column. -/
def resumeNoCoder : DataFrame :=
  { columns := ["coding_id", "classification"],
    rows := [[("coding_id", some "A"), ("classification", some "strong")]] }

/-- A parsed table with neither `coding_id` nor `quotation`. -/
def dfNoCols : DataFrame :=
  { columns := ["foo"], rows := [[("foo", some "bar")]] }

/-! Helper lemmas about the save handler's replace-or-append step. -/

/-- Every record of `replaceOrAppend l cid rec` is `rec` or one of `l`. -/
theorem mem_replaceOrAppend {l : List LabelRecord} {cid : Cell} {rec r : LabelRecord}
    (h : r ∈ replaceOrAppend l cid rec) : r = rec ∨ r ∈ l := by
  induction l with
  | nil => simpa [replaceOrAppend] using h
  | cons x xs ih =>
    by_cases hx : x.coding_id = cid
    · rw [replaceOrAppend, if_pos hx] at h
      rcases List.mem_cons.mp h with h | h
      · exact Or.inl h
      · exact Or.inr (List.mem_cons_of_mem _ h)
    · rw [replaceOrAppend, if_neg hx] at h
      rcases List.mem_cons.mp h with h | h
      · exact Or.inr (by simp [h])
      · rcases ih h with h' | h'
        · exact Or.inl h'
        · exact Or.inr (List.mem_cons_of_mem _ h')

/-- When no record of `l` carries `cid`, the new record is appended. -/
theorem replaceOrAppend_of_not_mem {l : List LabelRecord} {cid : Cell} (rec : LabelRecord)
    (h : cid ∉ l.map (fun r => r.coding_id)) : replaceOrAppend l cid rec = l ++ [rec] := by
  induction l with
  | nil => rfl
  | cons x xs ih =>
    rw [List.map_cons, List.mem_cons] at h
    push_neg at h
    rw [replaceOrAppend, if_neg (fun hc => h.1 hc.symm), ih h.2]
    rfl

/-- The first record carrying `cid` is replaced in place. -/
theorem replaceOrAppend_replace (l₁ l₂ : List LabelRecord) (x rec : LabelRecord) (cid : Cell)
    (hx : x.coding_id = cid) (hl₁ : cid ∉ l₁.map (fun r => r.coding_id)) :
    replaceOrAppend (l₁ ++ x :: l₂) cid rec = l₁ ++ rec :: l₂ := by
  induction l₁ with
  | nil => simp [replaceOrAppend, hx]
  | cons y ys ih =>
    rw [List.map_cons, List.mem_cons] at hl₁
    push_neg at hl₁
    rw [List.cons_append, replaceOrAppend, if_neg (fun hc => hl₁.1 hc.symm), ih hl₁.2,
      List.cons_append]

/-- Replacing by a record carrying `cid` leaves the id list's set unchanged
apart from inserting `cid`. -/
theorem replaceOrAppend_toFinset {l : List LabelRecord} {cid : Cell} {rec : LabelRecord}
    (hrec : rec.coding_id = cid) :
    ((replaceOrAppend l cid rec).map (fun r => r.coding_id)).toFinset =
      insert cid (l.map (fun r => r.coding_id)).toFinset := by
  induction l with
  | nil => simp [replaceOrAppend, hrec]
  | cons x xs ih =>
    by_cases hx : x.coding_id = cid
    · rw [replaceOrAppend, if_pos hx]
      simp [hrec, hx]
    · rw [replaceOrAppend, if_neg hx]
      rw [List.map_cons, List.toFinset_cons, ih, List.map_cons, List.toFinset_cons,
        Finset.Insert.comm]

/-- After a replace-or-append with a record carrying `cid`, the records
carrying `cid` are exactly the new record (given no duplicate ids before). -/
theorem replaceOrAppend_filter {l : List LabelRecord} {cid : Cell} {rec : LabelRecord}
    (hrec : rec.coding_id = cid) (hnd : (l.map (fun r => r.coding_id)).Nodup) :
    (replaceOrAppend l cid rec).filter (fun r => decide (r.coding_id = cid)) = [rec] := by
  induction l with
  | nil => simp [replaceOrAppend, hrec]
  | cons x xs ih =>
    rw [List.map_cons, List.nodup_cons] at hnd
    by_cases hx : x.coding_id = cid
    · rw [replaceOrAppend, if_pos hx]
      have hxs : xs.filter (fun r => decide (r.coding_id = cid)) = [] := by
        rw [List.filter_eq_nil_iff]
        intro r hr hcontra
        rw [decide_eq_true_eq] at hcontra
        exact hnd.1 (hx ▸ hcontra ▸ List.mem_map_of_mem (fun r => r.coding_id) hr)
      rw [List.filter_cons_of_pos (by simpa using hrec), hxs]
    · rw [replaceOrAppend, if_neg hx,
        List.filter_cons_of_neg (by simpa using hx), ih hnd.2]

/-- The id list of a replace-or-append stays duplicate-free. -/
theorem replaceOrAppend_nodup {l : List LabelRecord} {cid : Cell} {rec : LabelRecord}
    (hrec : rec.coding_id = cid) (hnd : (l.map (fun r => r.coding_id)).Nodup) :
    ((replaceOrAppend l cid rec).map (fun r => r.coding_id)).Nodup := by
  induction l with
  | nil => simp [replaceOrAppend]
  | cons x xs ih =>
    rw [List.map_cons, List.nodup_cons] at hnd
    by_cases hx : x.coding_id = cid
    · rw [replaceOrAppend, if_pos hx, List.map_cons, List.nodup_cons, hrec, ← hx]
      exact hnd
    · rw [replaceOrAppend, if_neg hx, List.map_cons, List.nodup_cons]
      refine ⟨fun hc => ?_, ih hnd.2⟩
      rcases List.mem_map.mp hc with ⟨r, hr, hid⟩
      rcases mem_replaceOrAppend hr with h | h
      · exact hx (by rw [← hid, h, hrec])
      · exact hnd.1 (hid ▸ List.mem_map_of_mem (fun r => r.coding_id) h)

/-! Helper lemmas about the resume-load handler. -/

/-- The `coding_id` of the row at position `i` of a table. -/
def idAt (df : DataFrame) (i : Nat) : Cell := getCell (df.rows.getD i []) "coding_id"

/-- When `firstUncodedIdx` finds an index, it is the least index whose
`coding_id` is outside `coded`. -/
theorem firstUncodedIdx_some {rows : List Row} {coded : Finset Cell} {i : Nat}
    (h : firstUncodedIdx rows coded = some i) :
    i < rows.length ∧ getCell (rows.getD i []) "coding_id" ∉ coded ∧
      ∀ j, j < i → getCell (rows.getD j []) "coding_id" ∈ coded := by
  induction rows generalizing i with
  | nil => simp [firstUncodedIdx] at h
  | cons row rest ih =>
    by_cases hm : getCell row "coding_id" ∈ coded
    · rw [firstUncodedIdx, if_pos hm] at h
      cases hr : firstUncodedIdx rest coded with
      | none => rw [hr] at h; simp at h
      | some k =>
        rw [hr] at h
        simp only [Option.map_some'] at h
        obtain ⟨h1, h2, h3⟩ := ih hr
        cases h
        refine ⟨by simpa using Nat.succ_lt_succ h1, by simpa using h2, ?_⟩
        intro j hj
        cases j with
        | zero => simpa using hm
        | succ j' =>
          have := h3 j' (Nat.lt_of_succ_lt_succ hj)
          simpa using this
    · rw [firstUncodedIdx, if_neg hm] at h
      cases h
      exact ⟨by simp, by simpa using hm, fun j hj => absurd hj (Nat.not_lt_zero j)⟩

/-- When `firstUncodedIdx` finds nothing, every row's `coding_id` is coded. -/
theorem firstUncodedIdx_none {rows : List Row} {coded : Finset Cell}
    (h : firstUncodedIdx rows coded = none) :
    ∀ j, j < rows.length → getCell (rows.getD j []) "coding_id" ∈ coded := by
  induction rows with
  | nil => intro j hj; simp at hj
  | cons row rest ih =>
    by_cases hm : getCell row "coding_id" ∈ coded
    · rw [firstUncodedIdx, if_pos hm] at h
      cases hr : firstUncodedIdx rest coded with
      | none =>
        intro j hj
        cases j with
        | zero => simpa using hm
        | succ j' =>
          have := ih hr j' (by simpa using Nat.lt_of_succ_lt_succ hj)
          simpa using this
      | some k => rw [hr] at h; simp at h
    · rw [firstUncodedIdx, if_neg hm] at h
      simp at h

/-- A successful validation reduces the resume-load handler to its
success branch. -/
theorem importSession_ok (s : SessionState) (resume coding_df : DataFrame)
    (now msg : String) (mids : Finset Cell)
    (hval : validate_resume_csv resume coding_df = (true, msg, mids)) :
    importSession s (some resume) coding_df now =
      ({ current_index := (firstUncodedIdx coding_df.rows
            ((acceptedRecords resume mids now).map (fun r => r.coding_id)).toFinset).getD
            (coding_df.rows.length - 1),
         results := acceptedRecords resume mids now,
         coded_ids := ((acceptedRecords resume mids now).map (fun r => r.coding_id)).toFinset,
         locked_coder_name := match acceptedRecords resume mids now with
           | [] => s.locked_coder_name
           | r :: _ => some r.coder_name },
       ImportOutcome.loaded (acceptedRecords resume mids now).length msg) := by
  simp only [importSession, hval]

/-- A failed validation aborts the resume load and keeps the state. -/
theorem importSession_err (s : SessionState) (resume coding_df : DataFrame)
    (now msg : String) (mids : Finset Cell)
    (hval : validate_resume_csv resume coding_df = (false, msg, mids)) :
    importSession s (some resume) coding_df now = (s, ImportOutcome.invalid msg) := by
  simp only [importSession, hval]

/-- A valid resume file has a nonempty, intersection-valued matching set. -/
theorem validate_true_elim {resume coding_df : DataFrame} {msg : String} {mids : Finset Cell}
    (hval : validate_resume_csv resume coding_df = (true, msg, mids)) :
    mids = (colIds resume).toFinset ∩ (colIds coding_df).toFinset ∧ mids ≠ ∅ := by
  simp only [validate_resume_csv] at hval
  split_ifs at hval with h1 h2 h3 <;> simp_all

/-- The accepted records are nonempty whenever some matching id occurs in
the resume file. -/
theorem acceptedRecords_ne_nil (resume_df : DataFrame) (mids : Finset Cell) (now : String)
    (h : ∃ cid ∈ mids, cid ∈ (colIds resume_df).toFinset) :
    acceptedRecords resume_df mids now ≠ [] := by
  obtain ⟨cid, hmid, hres⟩ := h
  rw [List.mem_toFinset, colIds, List.mem_map] at hres
  obtain ⟨row, hrow, hid⟩ := hres
  intro hnil
  unfold acceptedRecords at hnil
  rw [List.map_eq_nil_iff, List.filter_eq_nil_iff] at hnil
  exact hnil row hrow (by simp [hid, hmid])

/-- A record whose `coding_id` matches at most one source row yields exactly
one merged row (a NaN-filled one when it matches none). -/
theorem mergedRowsFor_length (r : LabelRecord) (coding_df : DataFrame)
    (h : (coding_df.rows.filter
      (fun row => decide (getCell row "coding_id" = r.coding_id))).length ≤ 1) :
    (mergedRowsFor r coding_df).length = 1 := by
  by_cases he : (coding_df.rows.filter
      (fun row => decide (getCell row "coding_id" = r.coding_id))).isEmpty
  · simp [mergedRowsFor, he]
  · have h1 : (coding_df.rows.filter
        (fun row => decide (getCell row "coding_id" = r.coding_id))).length ≠ 0 := by
      rw [Ne, List.length_eq_zero]
      intro hz
      rw [hz] at he
      exact he rfl
    simp only [mergedRowsFor, he, Bool.false_eq_true, if_false, List.length_map]
    omega

/-! The claims. -/

/-- C1, as stated by the spec, is false: the merge in `get_results_csv` is a
LEFT join, so a record whose `coding_id` is absent from the loaded Item table
still produces an output row.  Concretely, one record with id X against the
table with ids A, B, C yields one output row, while the number of records
whose id occurs in the table is zero. -/
theorem export_drops_nothing_counterexample :
    ¬ ((get_results_csv [recX] dfABC).map (fun out => out.rows.length) =
      Except.ok (([recX].filter (fun r =>
        (dfABC.rows.map (fun row => getCell row "coding_id")).contains r.coding_id)).length)) := by
  decide

/-- C1 (amended): when each LabelRecord's `coding_id` matches at most one row
of the loaded Item table, the Export row count equals the TOTAL number of
LabelRecords — records whose `coding_id` is absent from the table are kept,
with NaN-filled source columns, rather than dropped. -/
theorem export_rowcount_eq_results_length (results : List LabelRecord) (coding_df : DataFrame)
    (hcols : mergeSelectColumns.all (fun c => coding_df.columns.contains c) = true)
    (huniq : ∀ r ∈ results,
      (coding_df.rows.filter
        (fun row => decide (getCell row "coding_id" = r.coding_id))).length ≤ 1) :
    ∃ out, get_results_csv results coding_df = Except.ok out ∧
      out.rows.length = results.length := by
  unfold get_results_csv
  rw [if_pos hcols]
  refine ⟨_, rfl, ?_⟩
  simp only [List.length_map]
  induction results with
  | nil => simp
  | cons r rs ih =>
    rw [List.flatMap_cons, List.length_append,
      mergedRowsFor_length r coding_df (huniq r (by simp)),
      ih (fun r' hr' => huniq r' (List.mem_cons_of_mem _ hr')), List.length_cons]
    omega

/-- Witness for the amended C1 at a concrete input: one orphan record, the
three-row table; the export has exactly one row. -/
theorem export_rowcount_witness :
    ∃ out, get_results_csv [recX] dfABC = Except.ok out ∧
      out.rows.length = [recX].length :=
  export_rowcount_eq_results_length [recX] dfABC (by decide) (by decide)

/-- C2, as stated by the spec, is false: `load_coding_data_from_file` is just
`pd.read_csv` and performs no column validation, so a parsed table lacking
both `coding_id` and `quotation` is loaded successfully instead of failing
with `MissingColumns`. -/
theorem load_missing_columns_counterexample :
    dfNoCols.columns.contains "coding_id" = false ∧
    dfNoCols.columns.contains "quotation" = false ∧
    load_coding_data_from_file dfNoCols ≠ Except.error LoadError.MissingColumns := by
  decide

/-- C2 (amended): Load performs no validation of the source table's columns —
every parsed table is accepted unchanged, whether or not the required fields
`coding_id` and `quotation` are present. -/
theorem load_accepts_any_table (df : DataFrame) :
    load_coding_data_from_file df = Except.ok df := rfl

/-- C7: within a loaded table, `Previous` and `Skip` keep the cursor inside
the valid index range, and each is a no-op at its boundary (index 0 for
`Previous`, the last index for `Skip`) — no wraparound. -/
theorem cursor_stays_in_bounds (s : SessionState) (coding_df : DataFrame)
    (h : s.current_index < coding_df.rows.length) :
    (retreat s).current_index < coding_df.rows.length ∧
    (advance s coding_df).current_index < coding_df.rows.length ∧
    (s.current_index = 0 → retreat s = s) ∧
    (s.current_index = coding_df.rows.length - 1 → advance s coding_df = s) := by
  refine ⟨?_, ?_, ?_, ?_⟩
  · unfold retreat
    split
    · exact h
    · simp only
      omega
  · unfold advance
    split
    · exact h
    · next hne => simp only; omega
  · intro h0
    unfold retreat
    rw [if_pos h0]
  · intro hlast
    unfold advance
    rw [if_pos hlast]

/-- Witness for C7 at a concrete state: cursor 0 over the three-row table. -/
theorem cursor_stays_in_bounds_witness :
    (retreat initialSessionState).current_index < dfABC.rows.length ∧
    (advance initialSessionState dfABC).current_index < dfABC.rows.length ∧
    (initialSessionState.current_index = 0 → retreat initialSessionState = initialSessionState) ∧
    (initialSessionState.current_index = dfABC.rows.length - 1 →
      advance initialSessionState dfABC = initialSessionState) :=
  cursor_stays_in_bounds initialSessionState dfABC (by decide)

/-- C8, as stated by the spec, is false: `get_results_csv` unconditionally
selects the `description` column of the loaded table for the merge, so a
table lacking that optional column makes Export raise a `KeyError` instead of
omitting the column. -/
theorem export_missing_description_counterexample :
    dfNoDesc.columns.contains "description" = false ∧
    get_results_csv [recA] dfNoDesc = Except.error "KeyError: columns not in index" := by
  decide

/-- C8 (amended): Export FAILS whenever the optional source column
`description` is absent from the loaded table: the column selection feeding
the merge requires it, so the missing column raises an error rather than
being omitted (the omission in the final reordering step never applies). -/
theorem export_errors_without_description (results : List LabelRecord) (coding_df : DataFrame)
    (h : coding_df.columns.contains "description" = false) :
    get_results_csv results coding_df = Except.error "KeyError: columns not in index" := by
  have hall : mergeSelectColumns.all (fun c => coding_df.columns.contains c) = false := by
    rw [List.all_eq_false]
    exact ⟨"description", by decide, by simpa using h⟩
  unfold get_results_csv
  rw [if_neg (fun hc => Bool.false_ne_true (hall ▸ hc))]

/-- Witness for the amended C8 at a concrete input: the table without a
`description` column makes Export fail. -/
theorem export_errors_without_description_witness :
    get_results_csv [recA] dfNoDesc = Except.error "KeyError: columns not in index" :=
  export_errors_without_description [recA] dfNoDesc (by decide)

/-- A mid-session state: identity locked to alice, one record saved for A. -/
def sAlice : SessionState :=
  { current_index := 1, results := [recA],
    coded_ids := {some "A"}, locked_coder_name := some (some "alice") }

/-- C3, as stated by the spec, is false: a successful Import installs each
resume row's own stored `coder_name`, while the identity is locked to the
FIRST accepted record's name only.  A resume file whose two rows carry the
names alice and bob yields a locked identity of alice but a record whose
`coder_name` is bob. -/
theorem import_mixed_coder_names_counterexample :
    (importSession initialSessionState (some resumeAB) dfABC "t0").1.locked_coder_name =
      some (some "alice") ∧
    ¬ (∀ r ∈ (importSession initialSessionState (some resumeAB) dfABC "t0").1.results,
        some r.coder_name =
          (importSession initialSessionState (some resumeAB) dfABC "t0").1.locked_coder_name) := by
  decide

/-- C3 (amended): once the annotator identity is locked, every record created
or replaced by a later Save carries the locked identity, regardless of the
annotator value supplied to that Save; so when all stored records carry the
locked identity (as in any session built by Save calls alone), that invariant
is preserved.  Records installed by Import, however, keep their own stored
names and need not all equal the locked identity. -/
theorem save_uses_locked_name (s : SessionState) (coding_df : DataFrame)
    (cid cls nts nm now c : Cell)
    (hl : s.locked_coder_name = some c)
    (hall : ∀ r ∈ s.results, r.coder_name = c) :
    (save s coding_df cid cls nts nm now).locked_coder_name = some c ∧
    ∀ r ∈ (save s coding_df cid cls nts nm now).results, r.coder_name = c := by
  constructor
  · show some (s.locked_coder_name.getD nm) = some c
    rw [hl]
    rfl
  · intro r hr
    have hr' : r ∈ replaceOrAppend s.results cid (savedRecord s cid cls nts nm now) := hr
    rcases mem_replaceOrAppend hr' with h | h
    · rw [h]
      show s.locked_coder_name.getD nm = c
      rw [hl]
      rfl
    · exact hall r h

/-- Witness for the amended C3: saving item B while typing the name bob, in a
session locked to alice, produces records that all carry alice. -/
theorem save_uses_locked_name_witness :
    (save sAlice dfABC (some "B") (some "none") (some "") (some "bob")
      (some "t1")).locked_coder_name = some (some "alice") ∧
    ∀ r ∈ (save sAlice dfABC (some "B") (some "none") (some "") (some "bob")
      (some "t1")).results, r.coder_name = some "alice" :=
  save_uses_locked_name sAlice dfABC (some "B") (some "none") (some "") (some "bob")
    (some "t1") (some "alice") rfl (by decide)

/-- C4: a Save adds the identifier to the labeled-set; it appends the new
record when no stored record carries `coding_id`, and otherwise replaces the
existing record in place, at the same list position; from a duplicate-free
state, exactly one record for `coding_id` remains — the newly saved one — so
only the most recent classification and notes persist, with no duplicate. -/
theorem save_replace_or_append (s : SessionState) (coding_df : DataFrame)
    (cid cls nts nm now : Cell)
    (hnd : (s.results.map (fun r => r.coding_id)).Nodup) :
    (save s coding_df cid cls nts nm now).coded_ids = insert cid s.coded_ids ∧
    (cid ∉ s.results.map (fun r => r.coding_id) →
      (save s coding_df cid cls nts nm now).results =
        s.results ++ [savedRecord s cid cls nts nm now]) ∧
    (∀ l₁ x l₂, s.results = l₁ ++ x :: l₂ → x.coding_id = cid →
      (save s coding_df cid cls nts nm now).results =
        l₁ ++ savedRecord s cid cls nts nm now :: l₂) ∧
    (save s coding_df cid cls nts nm now).results.filter
      (fun r => decide (r.coding_id = cid)) = [savedRecord s cid cls nts nm now] ∧
    ((save s coding_df cid cls nts nm now).results.map (fun r => r.coding_id)).Nodup := by
  refine ⟨rfl, ?_, ?_, ?_, ?_⟩
  · intro hnot
    exact replaceOrAppend_of_not_mem _ hnot
  · intro l₁ x l₂ hdec hx
    have hl₁ : cid ∉ l₁.map (fun r => r.coding_id) := by
      rw [hdec, List.map_append, List.map_cons, List.nodup_append] at hnd
      intro hc
      exact hnd.2.2 hc (by simp [hx])
    show replaceOrAppend s.results cid (savedRecord s cid cls nts nm now) = _
    rw [hdec]
    exact replaceOrAppend_replace l₁ l₂ x _ cid hx hl₁
  · exact replaceOrAppend_filter rfl hnd
  · exact replaceOrAppend_nodup rfl hnd

/-- Witness for C4: saving A twice from the initial state leaves exactly the
second record for A. -/
theorem save_replace_or_append_witness :
    (save (save initialSessionState dfABC (some "A") (some "strong") (some "")
        (some "alice") (some "t0")) dfABC (some "A") (some "weak") (some "n2")
        (some "alice") (some "t1")).results.filter
      (fun r => decide (r.coding_id = some "A")) =
      [savedRecord (save initialSessionState dfABC (some "A") (some "strong") (some "")
        (some "alice") (some "t0")) (some "A") (some "weak") (some "n2")
        (some "alice") (some "t1")] :=
  (save_replace_or_append (save initialSessionState dfABC (some "A") (some "strong") (some "")
    (some "alice") (some "t0")) dfABC (some "A") (some "weak") (some "n2")
    (some "alice") (some "t1") (by decide)).2.2.2.1

/-- One session operation preserves the labeled-set invariant. -/
theorem applyOp_coded_inv (s : SessionState) (op : Op)
    (hs : s.coded_ids = (s.results.map (fun r => r.coding_id)).toFinset) :
    (applyOp s op).coded_ids = ((applyOp s op).results.map (fun r => r.coding_id)).toFinset := by
  cases op with
  | saveOp df cid cls nts nm now =>
    show insert cid s.coded_ids =
      ((replaceOrAppend s.results cid (savedRecord s cid cls nts nm now)).map
        (fun r => r.coding_id)).toFinset
    rw [@replaceOrAppend_toFinset s.results cid (savedRecord s cid cls nts nm now) rfl, hs]
  | importOp parsed df now =>
    cases parsed with
    | none => exact hs
    | some resume =>
      rcases hval : validate_resume_csv resume df with ⟨b, msg, mids⟩
      cases b with
      | false =>
        show (importSession s (some resume) df now).1.coded_ids =
          ((importSession s (some resume) df now).1.results.map (fun r => r.coding_id)).toFinset
        rw [importSession_err s resume df now msg mids hval]
        exact hs
      | true =>
        show (importSession s (some resume) df now).1.coded_ids =
          ((importSession s (some resume) df now).1.results.map (fun r => r.coding_id)).toFinset
        rw [importSession_ok s resume df now msg mids hval]

/-- C10: in every state reachable from the initial session state by any
sequence of Save and Import operations, the labeled-set equals the set of
`coding_id` values of the stored LabelRecords: Save inserts the saved id into
both together, and a successful Import rebuilds the set exactly from the
accepted records. -/
theorem coded_ids_eq_record_ids (ops : List Op) :
    (runOps initialSessionState ops).coded_ids =
      ((runOps initialSessionState ops).results.map (fun r => r.coding_id)).toFinset := by
  have h : ∀ (ops : List Op) (s : SessionState),
      s.coded_ids = (s.results.map (fun r => r.coding_id)).toFinset →
      (runOps s ops).coded_ids =
        ((runOps s ops).results.map (fun r => r.coding_id)).toFinset := by
    intro ops
    induction ops with
    | nil => intro s hs; exact hs
    | cons op rest ih =>
      intro s hs
      exact ih (applyOp s op) (applyOp_coded_inv s op hs)
  exact h ops initialSessionState (by simp [initialSessionState])

/-- A resume file with a missing required column fails validation. -/
theorem validate_missing_cols (resume coding_df : DataFrame)
    (h : requiredResumeColumns.all (fun c => resume.columns.contains c) = false) :
    validate_resume_csv resume coding_df = (false, "Missing required columns", ∅) := by
  unfold validate_resume_csv
  rw [if_neg (fun hc => Bool.false_ne_true (h ▸ hc))]

/-- A resume file sharing no identifier with the table fails validation. -/
theorem validate_no_match (resume coding_df : DataFrame)
    (hcols : requiredResumeColumns.all (fun c => resume.columns.contains c) = true)
    (hint : (colIds resume).toFinset ∩ (colIds coding_df).toFinset = ∅) :
    validate_resume_csv resume coding_df =
      (false, "No coding_ids in resume file match current data source", ∅) := by
  unfold validate_resume_csv
  rw [if_pos hcols]
  simp [hint]

/-- Counting the accepted records carrying a matching id `cid` counts the
resume rows carrying `cid`. -/
theorem acceptedRecords_filter_count (rows : List Row) (mids : Finset Cell)
    (now : String) (cid : Cell) (hcid : cid ∈ mids) :
    (((rows.filter (fun row => decide (getCell row "coding_id" ∈ mids))).map
        (fun row => recordOfRow row now)).filter
      (fun r => decide (r.coding_id = cid))).length =
      (rows.filter (fun row => decide (getCell row "coding_id" = cid))).length := by
  induction rows with
  | nil => rfl
  | cons row rest ih =>
    by_cases h : getCell row "coding_id" = cid
    · have hm : getCell row "coding_id" ∈ mids := h ▸ hcid
      rw [List.filter_cons_of_pos (by simpa using hm), List.map_cons,
        List.filter_cons_of_pos (by simp [recordOfRow, h]),
        List.filter_cons_of_pos (by simpa using h),
        List.length_cons, List.length_cons, ih]
    · by_cases hm : getCell row "coding_id" ∈ mids
      · rw [List.filter_cons_of_pos (by simpa using hm), List.map_cons,
          List.filter_cons_of_neg (by simp [recordOfRow, h]),
          List.filter_cons_of_neg (by simpa using h), ih]
      · rw [List.filter_cons_of_neg (by simpa using hm),
          List.filter_cons_of_neg (by simpa using h), ih]

/-- C9: a successful Import keeps one LabelRecord per accepted resume row and
never collapses duplicates, so a resume file with two or more rows sharing a
matching `coding_id` yields that many stored records with that same id —
Import does not enforce the one-record-per-item property Save maintains. -/
theorem import_keeps_duplicate_ids (s : SessionState) (resume coding_df : DataFrame)
    (now msg : String) (mids : Finset Cell) (cid : Cell)
    (hval : validate_resume_csv resume coding_df = (true, msg, mids))
    (hcid : cid ∈ mids)
    (h2 : 2 ≤ (resume.rows.filter
      (fun row => decide (getCell row "coding_id" = cid))).length) :
    2 ≤ ((importSession s (some resume) coding_df now).1.results.filter
      (fun r => decide (r.coding_id = cid))).length := by
  rw [importSession_ok s resume coding_df now msg mids hval]
  show 2 ≤ ((acceptedRecords resume mids now).filter
    (fun r => decide (r.coding_id = cid))).length
  unfold acceptedRecords
  rw [acceptedRecords_filter_count resume.rows mids now cid hcid]
  exact h2

/-- Witness for C9: the duplicate-id resume file yields two records for A. -/
theorem import_keeps_duplicate_ids_witness :
    2 ≤ ((importSession initialSessionState (some resumeDupA) dfABC "t0").1.results.filter
      (fun r => decide (r.coding_id = some "A"))).length :=
  import_keeps_duplicate_ids initialSessionState resumeDupA dfABC "t0"
    "Successfully validated coded arguments" {some "A"} (some "A")
    (by decide) (by decide) (by decide)

/-- C6: Import fails with the missing-columns message when a required resume
column is absent, fails with the no-matching message when the file shares no
identifier with the loaded table, and in every failure case — parse failures
included — the prior session state is returned unchanged. -/
theorem import_failure_preserves_state (s : SessionState) (coding_df : DataFrame)
    (now : String) :
    importSession s none coding_df now = (s, ImportOutcome.parseError) ∧
    (∀ resume : DataFrame,
      requiredResumeColumns.all (fun c => resume.columns.contains c) = false →
      importSession s (some resume) coding_df now =
        (s, ImportOutcome.invalid "Missing required columns")) ∧
    (∀ resume : DataFrame,
      requiredResumeColumns.all (fun c => resume.columns.contains c) = true →
      (colIds resume).toFinset ∩ (colIds coding_df).toFinset = ∅ →
      importSession s (some resume) coding_df now =
        (s, ImportOutcome.invalid "No coding_ids in resume file match current data source")) ∧
    (∀ (parsed : Option DataFrame) (msg : String),
      (importSession s parsed coding_df now).2 = ImportOutcome.invalid msg →
      (importSession s parsed coding_df now).1 = s) ∧
    (∀ parsed : Option DataFrame,
      (importSession s parsed coding_df now).2 = ImportOutcome.parseError →
      (importSession s parsed coding_df now).1 = s) := by
  refine ⟨rfl, ?_, ?_, ?_, ?_⟩
  · intro resume h
    exact importSession_err s resume coding_df now _ _ (validate_missing_cols resume coding_df h)
  · intro resume hcols hint
    exact importSession_err s resume coding_df now _ _
      (validate_no_match resume coding_df hcols hint)
  · intro parsed msg h
    cases parsed with
    | none => simp [importSession] at h
    | some resume =>
      rcases hval : validate_resume_csv resume coding_df with ⟨b, m, mids⟩
      cases b with
      | false => rw [importSession_err s resume coding_df now m mids hval]
      | true =>
        rw [importSession_ok s resume coding_df now m mids hval] at h
        simp at h
  · intro parsed h
    cases parsed with
    | none => rfl
    | some resume =>
      rcases hval : validate_resume_csv resume coding_df with ⟨b, m, mids⟩
      cases b with
      | false => rw [importSession_err s resume coding_df now m mids hval]
      | true =>
        rw [importSession_ok s resume coding_df now m mids hval] at h
        simp at h

/-- Witness for C6: the resume file without `coder_name` and the one with the
unknown id X are rejected with the corresponding messages and leave the
initial session state unchanged. -/
theorem import_failure_preserves_state_witness :
    importSession initialSessionState (some resumeNoCoder) dfABC "t0" =
      (initialSessionState, ImportOutcome.invalid "Missing required columns") ∧
    importSession initialSessionState (some resumeX) dfABC "t0" =
      (initialSessionState,
        ImportOutcome.invalid "No coding_ids in resume file match current data source") :=
  ⟨(import_failure_preserves_state initialSessionState dfABC "t0").2.1 resumeNoCoder (by decide),
   (import_failure_preserves_state initialSessionState dfABC "t0").2.2.1 resumeX
     (by decide) (by decide)⟩

/-- C5: a resume file accepted by validation makes Import replace the record
collection with exactly the accepted rows' records (a destructive replace,
not a merge), rebuild the labeled-set from them, lock the annotator identity
to the first accepted record's stored coder name, and reposition the cursor
to the first item whose identifier is uncoded — or to the last item when
every identifier is coded. -/
theorem import_success_spec (s : SessionState) (resume coding_df : DataFrame)
    (now msg : String) (mids : Finset Cell)
    (hval : validate_resume_csv resume coding_df = (true, msg, mids)) :
    (importSession s (some resume) coding_df now).1.results =
      acceptedRecords resume mids now ∧
    (importSession s (some resume) coding_df now).1.coded_ids =
      ((acceptedRecords resume mids now).map (fun r => r.coding_id)).toFinset ∧
    (∃ r0 rest, acceptedRecords resume mids now = r0 :: rest ∧
      (importSession s (some resume) coding_df now).1.locked_coder_name =
        some r0.coder_name) ∧
    ((∃ i, i < coding_df.rows.length ∧
        idAt coding_df i ∉ (importSession s (some resume) coding_df now).1.coded_ids) →
      ((importSession s (some resume) coding_df now).1.current_index < coding_df.rows.length ∧
       idAt coding_df ((importSession s (some resume) coding_df now).1.current_index) ∉
         (importSession s (some resume) coding_df now).1.coded_ids ∧
       ∀ j, j < (importSession s (some resume) coding_df now).1.current_index →
         idAt coding_df j ∈ (importSession s (some resume) coding_df now).1.coded_ids)) ∧
    ((∀ i, i < coding_df.rows.length →
        idAt coding_df i ∈ (importSession s (some resume) coding_df now).1.coded_ids) →
      (importSession s (some resume) coding_df now).1.current_index =
        coding_df.rows.length - 1) := by
  obtain ⟨hmids, hne⟩ := validate_true_elim hval
  have hnonempty : acceptedRecords resume mids now ≠ [] := by
    apply acceptedRecords_ne_nil
    obtain ⟨cid, hcid⟩ := Finset.nonempty_iff_ne_empty.mpr hne
    exact ⟨cid, hcid, by rw [hmids] at hcid; exact (Finset.mem_inter.mp hcid).1⟩
  rw [importSession_ok s resume coding_df now msg mids hval]
  refine ⟨rfl, rfl, ?_, ?_, ?_⟩
  · obtain ⟨r0, rest, hdec⟩ := List.exists_cons_of_ne_nil hnonempty
    refine ⟨r0, rest, hdec, ?_⟩
    show (match acceptedRecords resume mids now with
      | [] => s.locked_coder_name
      | r :: _ => some r.coder_name) = some r0.coder_name
    rw [hdec]
  · rintro ⟨i, hi, hni⟩
    cases hfu : firstUncodedIdx coding_df.rows
        ((acceptedRecords resume mids now).map (fun r => r.coding_id)).toFinset with
    | some k =>
      obtain ⟨h1, h2, h3⟩ := firstUncodedIdx_some hfu
      exact ⟨h1, h2, fun j hj => h3 j hj⟩
    | none =>
      exact absurd (firstUncodedIdx_none hfu i hi) hni
  · intro hall
    cases hfu : firstUncodedIdx coding_df.rows
        ((acceptedRecords resume mids now).map (fun r => r.coding_id)).toFinset with
    | some k =>
      obtain ⟨h1, h2, h3⟩ := firstUncodedIdx_some hfu
      exact absurd (hall k h1) h2
    | none => rfl

/-- Witness for C5 at the spec's scenario: resuming the alice/bob file over
the A, B, C table installs exactly the accepted records and repositions the
cursor to the first uncoded item, C at index 2. -/
theorem import_success_spec_witness :
    (importSession initialSessionState (some resumeAB) dfABC "t0").1.results =
      acceptedRecords resumeAB {some "A", some "B"} "t0" :=
  (import_success_spec initialSessionState resumeAB dfABC "t0"
    "Successfully validated coded arguments" {some "A", some "B"} (by decide)).1

end CodingInterface
